import Mathlib

/-!
Verification development for the Reliance XR panel integration
(`src/platform.js`, `src/xr-api.js`): a shallow embedding of the
bitfield decoder, the protocol client's retry logic, the login
single-flight coordination, the polling reconciler, and the pulse
notifier, together with theorems settling the spec's claims.

JavaScript machine arithmetic is modelled explicitly: numbers that can be
NaN are `Option Int` (with `none` for NaN), and the 32-bit coercions
performed by the bitwise operators are spelled out as `% 2^32`.
-/

/-- JS ToUint32: reduce an integer modulo 2^32 (the result of
`Int.emod` by a positive modulus is non-negative, so `toNat` is exact). -/
def jsToUint32 (x : Int) : Nat := (x % (2 ^ 32 : Int)).toNat

/-- JS ToInt32: reduce modulo 2^32 into the signed range [-2^31, 2^31). -/
def jsToInt32 (x : Int) : Int :=
  let u := jsToUint32 x
  if u < 2 ^ 31 then (u : Int) else (u : Int) - 2 ^ 32

/-- JS bitwise AND `a & b`: both operands pass through ToInt32 and the
result is interpreted as a signed 32-bit integer. -/
def jsAnd (a b : Int) : Int :=
  jsToInt32 ((Nat.land (jsToUint32 a) (jsToUint32 b) : Nat) : Int)

/-- JS left shift `a << b`: shift count is ToUint32(b) mod 32, result ToInt32. -/
def jsShl (a b : Int) : Int :=
  jsToInt32 ((jsToUint32 a <<< (jsToUint32 b % 32) : Nat) : Int)

/-- A JS number that is either an integer or NaN (`none`). -/
abbrev JsNum := Option Int

/-- JS bitwise AND where the left operand may be NaN (ToInt32(NaN) = 0). -/
def jsAndNum (a : JsNum) (b : Int) : Int := jsAnd (a.getD 0) b

/-- The whitespace characters skipped by JS `parseInt` (ASCII subset:
tab, line feed, vertical tab, form feed, carriage return, space). -/
def jsIsWhitespace (c : Char) : Bool :=
  c = ' ' ∨ c = '\t' ∨ c = '\n' ∨ c = '\x0b' ∨ c = '\x0c' ∨ c = '\r'

/-- The characters accepted as hexadecimal digits by `parseInt(_, 16)`. -/
def hexChars : List Char := "0123456789abcdefABCDEF".data

/-- Whether a character is a hexadecimal digit. -/
def isHexDigit (c : Char) : Bool := decide (c ∈ hexChars)

/-- Numeric value of a hexadecimal digit (0 for non-digits). -/
def hexDigitVal (c : Char) : Nat :=
  if '0' ≤ c ∧ c ≤ '9' then c.toNat - '0'.toNat
  else if 'a' ≤ c ∧ c ≤ 'f' then c.toNat - 'a'.toNat + 10
  else if 'A' ≤ c ∧ c ≤ 'F' then c.toNat - 'A'.toNat + 10
  else 0

/-- Accumulate the value of the longest leading run of hex digits. -/
def takeHexVal : List Char → Nat → Nat
  | [], acc => acc
  | c :: r, acc => if isHexDigit c then takeHexVal r (acc * 16 + hexDigitVal c) else acc

/-- Strip an optional leading sign, returning the sign and the rest. -/
def stripSign : List Char → Int × List Char
  | [] => (1, [])
  | c :: r => if c = '-' then (-1, r) else if c = '+' then (1, r) else (1, c :: r)

/-- Strip an optional leading "0x"/"0X" prefix (radix 16 behaviour). -/
def strip0x : List Char → List Char
  | c0 :: c1 :: r => if c0 = '0' ∧ (c1 = 'x' ∨ c1 = 'X') then r else c0 :: c1 :: r
  | l => l

/-- JS `parseInt(s, 16)`: skip whitespace, read an optional sign and an
optional "0x" prefix, then the longest run of hex digits; `none` models
NaN (no digits found). -/
def jsParseIntRadix16 (s : String) : JsNum :=
  let cs := s.data.dropWhile jsIsWhitespace
  let sc := stripSign cs
  let cs2 := strip0x sc.2
  match cs2 with
  | [] => none
  | c :: _ => if isHexDigit c then some (sc.1 * (takeHexVal cs2 0 : Nat)) else none

/-- JS `String.prototype.substring(start, finish)`: clamp both indices to
[0, length] and swap them if out of order. -/
def jsSubstring (s : String) (start finish : Int) : String :=
  let len : Int := s.length
  let a := max 0 (min start len)
  let b := max 0 (min finish len)
  let lo := min a b
  let hi := max a b
  ⟨(s.data.take hi.toNat).drop lo.toNat⟩

/-- `XRApi._hexByteAt(bankstates, startIndex)`: take the two characters at
`startIndex`, return 0 when the slice is empty or not exactly two
characters long, otherwise `parseInt(slice, 16)` (which is NaN for a
malformed slice). -/
def _hexByteAt (bankstates : String) (startIndex : Int) : JsNum :=
  let hex := jsSubstring bankstates startIndex (startIndex + 2)
  if hex = "" ∨ hex.length ≠ 2 then some 0 else jsParseIntRadix16 hex

/-- Mode string constants returned by the decoder. -/
def unknownS : String := "UNKNOWN"

/-- Mode string for a fully armed area. -/
def awayS : String := "AWAY"

/-- Mode string for a partially armed area. -/
def stayS : String := "STAY"

/-- Mode string for a disarmed area. -/
def disarmedS : String := "DISARMED"

/-- `XRApi.decodeAreaModeFromBankstates(bankstates, areaIndex)`: falsy
(empty) blob gives UNKNOWN; otherwise mask the partial-arm byte at char
offset 4, the full-arm byte at 6 and the two exit-delay bytes at 8 and 10
with `1 << (areaIndex % 8)`; AWAY if the full-arm bit is set, else STAY if
the partial-arm bit is set, else DISARMED (both exit branches). -/
def decodeAreaModeFromBankstates (bankstates : String) (areaIndex : Nat) : String :=
  if bankstates = "" then unknownS else
  let i := areaIndex
  let mask : Int := jsShl 1 ((i % 8 : Nat) : Int)
  let stpart := _hexByteAt bankstates 4
  let starm := _hexByteAt bankstates 6
  let stexit1 := _hexByteAt bankstates 8
  let stexit2 := _hexByteAt bankstates 10
  let isExit : Bool := jsAndNum stexit1 mask ≠ 0 ∨ jsAndNum stexit2 mask ≠ 0
  let isAway : Bool := jsAndNum starm mask ≠ 0
  let isStay : Bool := jsAndNum stpart mask ≠ 0
  if isAway then awayS
  else if isStay then stayS
  else if !isExit then disarmedS
  else disarmedS

/-- `XRApi.getZoneStateBanks(bankstates)`: exposes the raw blob. -/
def getZoneStateBanks (bankstates : String) : String := bankstates

/-- `XRApi.isZoneOpenFromBanks(bankstates, zoneNumber, zoneOpenBank,
zoneOpenWhenSet)`: falsy blob gives false; otherwise the 1-based zone is
converted to 0-based `zi`, masked with `1 << (zi % 8)` (JS truncated
remainder and 32-bit shift), the byte at char offset
`2 * floor(zi / 8) + zoneOpenBank * 0` is read, and the bit (or its
negation, per polarity) is returned. -/
def isZoneOpenFromBanks (bankstates : String) (zoneNumber : Nat)
    (zoneOpenBank : Nat) (zoneOpenWhenSet : Bool) : Bool :=
  if bankstates = "" then false else
  let z : Int := zoneNumber
  let zi : Int := z - 1
  let mask : Int := jsShl 1 (Int.tmod zi 8)
  let byteStart : Int := 2 * Int.fdiv zi 8 + (zoneOpenBank : Int) * 0
  let byte := _hexByteAt bankstates byteStart
  let bitSet : Bool := jsAndNum byte mask ≠ 0
  if zoneOpenWhenSet then bitSet else !bitSet

/-- ASCII lowering of a string, modelling `String.prototype.toLowerCase`
on the ASCII marker substrings involved. -/
def toLowerStr (s : String) : String := ⟨s.data.map Char.toLower⟩

/-- Boolean prefix test on character lists. -/
def isPrefixOfB : List Char → List Char → Bool
  | [], _ => true
  | _ :: _, [] => false
  | a :: as, b :: bs => a = b && isPrefixOfB as bs

/-- Boolean substring-occurrence test, modelling `String.prototype.includes`. -/
def containsList (pat : List Char) : List Char → Bool
  | [] => isPrefixOfB pat []
  | h :: t => isPrefixOfB pat (h :: t) || containsList pat t

/-- `hay.includes(pat)` on strings. -/
def strIncludes (hay pat : String) : Bool := containsList pat.data hay.data

/-- Login-page marker: the page title. -/
def markerTitle : String := "xgen :: secure network"

/-- Login-page marker: the login path. -/
def markerPath : String := "/login.htm"

/-- Login-page marker: the username form field. -/
def markerName : String := "lgname"

/-- Login-page marker: the pin form field. -/
def markerPin : String := "lgpin"

/-- `XRApi.looksLikeLoginHtml(text)`: falsy text is not a login page;
otherwise lower-case the text and look for any of the four markers. -/
def looksLikeLoginHtml (text : String) : Bool :=
  if text = "" then false else
  let t := toLowerStr text
  strIncludes t markerTitle || strIncludes t markerPath ||
  strIncludes t markerName || strIncludes t markerPin

/-- Result of one `XRApi.request` call: the resolved value or the thrown
error, abstracted over the parsed-JSON type `J`. -/
inductive ReqOutcome (J : Type) where
  | text (s : String)
  | json (j : J)
  | invalidJson (snippet : String)
  | panelError (j : J)
deriving DecidableEq

/-- The body-processing tail of `XRApi.request` once the retry branch has
been passed (`retry = false` skips the login-page check entirely):
return raw text unless JSON is expected; otherwise parse (a parse failure
throws Invalid JSON with a 120-character snippet) and surface an embedded
error object. `parse` and `hasErr` stand for the JS builtins `JSON.parse`
and the truthiness test `parsed && parsed.error`. -/
def processResponse {J : Type} (parse : String → Option J) (hasErr : J → Bool)
    (text : String) (expectJson : Bool) : ReqOutcome J :=
  if !expectJson then ReqOutcome.text text else
  match parse text with
  | none => ReqOutcome.invalidJson ⟨text.data.take 120⟩
  | some j => if hasErr j then ReqOutcome.panelError j else ReqOutcome.json j

/-- Trace of one `XRApi.request` call: its outcome, how many fetches it
performed, and how many re-logins it triggered. -/
structure ReqTrace (J : Type) where
  outcome : ReqOutcome J
  fetches : Nat
  logins : Nat
deriving DecidableEq

/-- `XRApi.request(path, …)` with the default `retry = true`, the network
supplied as an oracle `bodies` giving the text of the n-th fetch: if the
first body is classified as a login page, re-login once and retry once
with `retry = false` (whose body skips the login-page check and goes
straight to `processResponse`); otherwise process the first body. -/
def request {J : Type} (parse : String → Option J) (hasErr : J → Bool)
    (bodies : Nat → String) (expectJson : Bool) : ReqTrace J :=
  let t1 := bodies 0
  if looksLikeLoginHtml t1 then
    let t2 := bodies 1
    { outcome := processResponse parse hasErr t2 expectJson, fetches := 2, logins := 1 }
  else
    { outcome := processResponse parse hasErr t1 expectJson, fetches := 1, logins := 0 }

/-- HomeKit `SecuritySystemCurrentState` values used by the platform. -/
inductive SecCur where
  | DISARMED
  | STAY_ARM
  | AWAY_ARM
deriving DecidableEq

/-- HomeKit `SecuritySystemTargetState` values used by the platform. -/
inductive SecTgt where
  | DISARM
  | STAY_ARM
  | AWAY_ARM
deriving DecidableEq

/-- HomeKit door state values used by the platform. -/
inductive DoorSt where
  | OPEN
  | CLOSED
deriving DecidableEq

/-- HomeKit `StatusFault` values used by the platform. -/
inductive FaultV where
  | NO_FAULT
  | GENERAL_FAULT
deriving DecidableEq

/-- Pulse key for the alarm event sensor. -/
def alarmKey : String := "alarm"

/-- Pulse key for the door event sensor. -/
def doorKey : String := "door"

/-- Observable notifications the reconciler sends to the accessory layer:
characteristic level-state updates and `pulseMotion` invocations. -/
inductive Ev where
  | updateSecurityCurrent (v : SecCur)
  | updateSecurityTarget (v : SecTgt)
  | updateSecurityFault (v : FaultV)
  | updateGarageCurrent (v : DoorSt)
  | updateGarageTarget (v : DoorSt)
  | pulse (key : String)
deriving DecidableEq

/-- The reconciler snapshot: `cachedMode` (a mode string, initially
"UNKNOWN") and `cachedDoorOpen` (initially JS `null`, modelled `none`). -/
structure ReconSt where
  cachedMode : String
  cachedDoorOpen : Option Bool
deriving DecidableEq

/-- Configuration values the poll cycle reads. -/
structure PlatformConfig where
  areaIndex : Nat
  rollerDoorZone : Nat
  zoneOpenBank : Nat
  zoneOpenWhenSet : Bool
deriving DecidableEq

/-- `RelianceXRPlatform.setMode(mode)`: normalize a falsy mode to
UNKNOWN, return silently when it equals the cache, otherwise cache it,
pulse the alarm key, and push current state, target state (unknown modes
map to DISARMED / DISARM) and NO_FAULT to the security service. -/
def setMode (st : ReconSt) (mode0 : String) : ReconSt × List Ev :=
  let mode := if mode0 = "" then unknownS else mode0
  if mode = st.cachedMode then (st, []) else
  let cur : SecCur :=
    if mode = disarmedS then SecCur.DISARMED
    else if mode = stayS then SecCur.STAY_ARM
    else if mode = awayS then SecCur.AWAY_ARM
    else SecCur.DISARMED
  let tgt : SecTgt :=
    if mode = disarmedS then SecTgt.DISARM
    else if mode = stayS then SecTgt.STAY_ARM
    else if mode = awayS then SecTgt.AWAY_ARM
    else SecTgt.DISARM
  ({ st with cachedMode := mode },
   [Ev.pulse alarmKey, Ev.updateSecurityCurrent cur, Ev.updateSecurityTarget tgt,
    Ev.updateSecurityFault FaultV.NO_FAULT])

/-- `RelianceXRPlatform.setGarageOpen(isOpen)`: return silently when the
cache (strictly) equals the new value, otherwise cache it, pulse the door
key, and push current and target door state. -/
def setGarageOpen (st : ReconSt) (isOpen : Bool) : ReconSt × List Ev :=
  if st.cachedDoorOpen = some isOpen then (st, []) else
  ({ st with cachedDoorOpen := some isOpen },
   [Ev.pulse doorKey,
    Ev.updateGarageCurrent (if isOpen then DoorSt.OPEN else DoorSt.CLOSED),
    Ev.updateGarageTarget (if isOpen then DoorSt.OPEN else DoorSt.CLOSED)])

/-- `RelianceXRPlatform.pollOnce()` after the status fetch succeeded with
blob `bankstates`: decode the area mode, reconcile it, and when a door
zone is configured decode and reconcile the zone-open state. -/
def pollOnce (cfg : PlatformConfig) (st : ReconSt) (bankstates : String) :
    ReconSt × List Ev :=
  let mode := decodeAreaModeFromBankstates bankstates cfg.areaIndex
  let r1 := setMode st mode
  if 0 < cfg.rollerDoorZone then
    let banks := getZoneStateBanks bankstates
    let isOpen := isZoneOpenFromBanks banks cfg.rollerDoorZone cfg.zoneOpenBank
      cfg.zoneOpenWhenSet
    let r2 := setGarageOpen r1.1 isOpen
    (r2.1, r1.2 ++ r2.2)
  else r1

/-- Platform state visible to `pollOnceSafe`: the reconciler snapshot and
the session token `xr.sess`. -/
structure SafeSt where
  recon : ReconSt
  sess : Option String
deriving DecidableEq

/-- `RelianceXRPlatform.pollOnceSafe()`: the status fetch either yields a
blob (poll proceeds) or throws (the snapshot is untouched, `xr.sess` is
nulled to force re-login, and a GENERAL_FAULT is signalled). -/
def pollOnceSafe (cfg : PlatformConfig) (st : SafeSt)
    (res : Except String String) : SafeSt × List Ev :=
  match res with
  | Except.ok blob =>
    let r := pollOnce cfg st.recon blob
    ({ st with recon := r.1 }, r.2)
  | Except.error _ =>
    ({ st with sess := none }, [Ev.updateSecurityFault FaultV.GENERAL_FAULT])

/-- PulseNotifier state: the MotionDetected level per key, the pending
(uncancelled) `setTimeout` callbacks as `(id, key, fireAt)` triples, the
`_eventResetTimers` map from key to timer id, and a fresh-id counter. -/
structure PulseSt where
  motion : String → Bool
  pending : List (Nat × String × Nat)
  resetTimer : String → Option Nat
  nextId : Nat

/-- The pending timers whose key is `k`. -/
def pendingFor (st : PulseSt) (k : String) : List (Nat × String × Nat) :=
  st.pending.filter (fun t => t.2.1 = k)

/-- `RelianceXRPlatform.pulseMotion(service, key)` at time `now` with
pulse duration `ms`: set MotionDetected, cancel the timer registered for
`key` (if any), schedule a fresh reset at `now + ms`, and register it. -/
def pulseMotion (st : PulseSt) (key : String) (now ms : Nat) : PulseSt :=
  let cleared :=
    match st.resetTimer key with
    | some tid => st.pending.filter (fun t => t.1 ≠ tid)
    | none => st.pending
  { motion := fun k => if k = key then true else st.motion k,
    pending := cleared ++ [(st.nextId, key, now + ms)],
    resetTimer := fun k => if k = key then some st.nextId else st.resetTimer k,
    nextId := st.nextId + 1 }

/-- A scheduled reset callback firing: if the timeout id was cancelled
(not pending) nothing happens; otherwise MotionDetected is cleared for
its key and the key is deleted from `_eventResetTimers`. -/
def fireTimer (st : PulseSt) (tid : Nat) : PulseSt :=
  match st.pending.find? (fun t => t.1 = tid) with
  | none => st
  | some t =>
    { motion := fun k => if k = t.2.1 then false else st.motion k,
      pending := st.pending.filter (fun u => u.1 ≠ tid),
      resetTimer := fun k => if k = t.2.1 then none else st.resetTimer k,
      nextId := st.nextId }

/-- Well-formedness of the pulse state: pending ids are below the fresh
counter, pending ids are distinct, and the pending timers of a key are
exactly the one registered in `_eventResetTimers` (none when the map has
no entry). -/
def PulseWF (st : PulseSt) : Prop :=
  (∀ t ∈ st.pending, t.1 < st.nextId) ∧
  (st.pending.map Prod.fst).Nodup ∧
  (∀ k, st.resetTimer k = none → pendingFor st k = []) ∧
  (∀ k i, st.resetTimer k = some i → ∃ ft, pendingFor st k = [(i, k, ft)])

/-- Outcome of the single network login attempt. -/
inductive LoginOutcome where
  | ok (tok : String)
  | err
deriving DecidableEq

/-- State of the promise returned by `XRApi.login()`'s async body. -/
inductive PromState where
  | pending
  | settled (o : LoginOutcome)
deriving DecidableEq

/-- Program counter of one `ensureLoggedIn()` caller: `start` before its
synchronous prefix runs, `awaiting pid creator` while suspended on
promise `pid` (`creator` marks the caller whose `login()` created the
attempt and whose `finally` clears `loggingIn`), and the return states. -/
inductive CallerSt where
  | start
  | awaiting (pid : Nat) (creator : Bool)
  | retOk
  | retErr
deriving DecidableEq

/-- Shared `XRApi` session state plus the caller population: `sess`,
`loggingIn` (the in-flight promise id), the promise table, the count of
network login attempts started, and each caller's program counter. -/
structure LoginSys where
  sess : Option String
  loggingIn : Option Nat
  promises : List PromState
  attempts : Nat
  callers : List CallerSt
deriving DecidableEq

/-- Return state a caller reaches when its awaited promise settles. -/
def retMatch : LoginOutcome → CallerSt
  | LoginOutcome.ok _ => CallerSt.retOk
  | LoginOutcome.err => CallerSt.retErr

/-- Events of the event-loop interleaving: a caller's synchronous prefix
(`call`), the network attempt settling its promise (`settle`), and a
suspended caller resuming (`resume`). -/
inductive LEvent where
  | call (ci : Nat)
  | settle (pid : Nat) (o : LoginOutcome)
  | resume (ci : Nat)
deriving DecidableEq

/-- Whether an event is a caller's synchronous prefix. -/
def isCall : LEvent → Bool
  | LEvent.call _ => true
  | _ => false

/-- Whether an event is a caller resumption. -/
def isResume : LEvent → Bool
  | LEvent.resume _ => true
  | _ => false

/-- Whether a caller is suspended on a promise. -/
def isAwait : CallerSt → Bool
  | CallerSt.awaiting _ _ => true
  | _ => false

/-- A caller's synchronous prefix: `ensureLoggedIn()` up to its first
suspension. With a session it returns at once; else `login()` either joins
the in-flight promise (`if (this.loggingIn) return this.loggingIn`) or
clears `sess`, starts the network attempt (counted), publishes a fresh
pending promise in `loggingIn`, and awaits it. -/
def lcall (s : LoginSys) (ci : Nat) : LoginSys :=
  match s.callers.get? ci with
  | some CallerSt.start =>
    match s.sess with
    | some _ => { s with callers := s.callers.set ci CallerSt.retOk }
    | none =>
      match s.loggingIn with
      | some p => { s with callers := s.callers.set ci (CallerSt.awaiting p false) }
      | none =>
        let pid := s.promises.length
        { sess := none, loggingIn := some pid,
          promises := s.promises ++ [PromState.pending],
          attempts := s.attempts + 1,
          callers := s.callers.set ci (CallerSt.awaiting pid true) }
  | _ => s

/-- The network attempt's promise settles: the async body stores the token in
`sess` on success (it left `sess` cleared on failure) and the promise becomes
settled, waking the awaiting callers. -/
def lsettle (s : LoginSys) (pid : Nat) (o : LoginOutcome) : LoginSys :=
  match s.promises.get? pid with
  | some PromState.pending =>
    { s with promises := s.promises.set pid (PromState.settled o),
             sess := match o with
               | LoginOutcome.ok t => some t
               | LoginOutcome.err => s.sess }
  | _ => s

/-- A caller suspended on a settled promise resumes: it returns `retOk` on a
resolved promise and `retErr` on a rejected one; the creating caller's
`finally` block clears `loggingIn`. -/
def lresume (s : LoginSys) (ci : Nat) : LoginSys :=
  match s.callers.get? ci with
  | some (CallerSt.awaiting pid cr) =>
    match s.promises.get? pid with
    | some (PromState.settled o) =>
      { s with callers := s.callers.set ci (retMatch o),
               loggingIn := if cr then none else s.loggingIn }
    | _ => s
  | _ => s

/-- Dispatch one atomic event-loop step. -/
def lstep (s : LoginSys) (e : LEvent) : LoginSys :=
  match e with
  | LEvent.call ci => lcall s ci
  | LEvent.settle pid o => lsettle s pid o
  | LEvent.resume ci => lresume s ci

/-- Run a list of events. -/
def execList (s : LoginSys) (es : List LEvent) : LoginSys := es.foldl lstep s

/-- Initial state: no session, no login in flight, `n` callers about to
invoke `ensureLoggedIn()`. -/
def initSys (n : Nat) : LoginSys :=
  { sess := none, loggingIn := none, promises := [], attempts := 0,
    callers := List.replicate n CallerSt.start }


/-- The empty string (JS falsy blob). -/
def emptyS : String := ""

/-- A two-character slice that is not valid hexadecimal. -/
def zzS : String := "zz"

/-- A small all-hex blob. -/
def blob1234 : String := "1234"

/-- A 12-character blob with no arming or exit bits set. -/
def blobZeros : String := "000000000000"

/-- A blob whose first byte has bit 0 set. -/
def blobZ : String := "01"

/-- A sample session token. -/
def tokA : String := "ABCD"

/-- Configuration with a door zone configured (zone 1, bank 0, open-when-set). -/
def cfgDoor : PlatformConfig := ⟨0, 1, 0, true⟩

/-- Configuration with no door zone configured. -/
def cfgNoDoor : PlatformConfig := ⟨0, 0, 0, true⟩

/-- A 12-character blob whose full-arm byte (char offset 6) has bit 0 set. -/
def blobAway : String := "000000010000"

/-- The pulse notifier state at startup: signals clear, no timers. -/
def stEmpty : PulseSt :=
  { motion := fun _ => false, pending := [], resetTimer := fun _ => none, nextId := 0 }

/-- A sample token for the login scenario. -/
def tokT : String := "T"

/-- Invariant of the concurrent phase: no session, and either nothing has
happened yet, or exactly one attempt has started, its pending promise 0 is
the in-flight marker, and every caller is still at `start` or suspended on
promise 0. -/
def phase1Inv (n : Nat) (s : LoginSys) : Prop :=
  s.callers.length = n ∧ s.sess = none ∧
  (((∀ c ∈ s.callers, c = CallerSt.start) ∧ s.loggingIn = none ∧
      s.promises = [] ∧ s.attempts = 0) ∨
   (s.loggingIn = some 0 ∧ s.promises = [PromState.pending] ∧ s.attempts = 1 ∧
      ∀ c ∈ s.callers, c = CallerSt.start ∨ ∃ cr, c = CallerSt.awaiting 0 cr))

/-- Invariant of the resumption phase: one attempt, the single promise is
settled with outcome `o`, and every caller is suspended on it or has
returned with the matching outcome. -/
def phase3Inv (o : LoginOutcome) (s : LoginSys) : Prop :=
  s.attempts = 1 ∧ s.promises = [PromState.settled o] ∧
  ∀ c ∈ s.callers, (∃ cr, c = CallerSt.awaiting 0 cr) ∨ c = retMatch o

/-- The decoder never returns the empty string. -/
theorem decode_ne_empty (blob : String) (i : Nat) :
    decodeAreaModeFromBankstates blob i ≠ "" := by
  unfold decodeAreaModeFromBankstates
  split
  · decide
  · dsimp only
    split
    · decide
    · split
      · decide
      · split <;> decide

/-- On a non-empty blob the decoder returns AWAY, STAY or DISARMED. -/
theorem decode_mem (blob : String) (i : Nat) (hne : blob ≠ "") :
    decodeAreaModeFromBankstates blob i = awayS ∨
    decodeAreaModeFromBankstates blob i = stayS ∨
    decodeAreaModeFromBankstates blob i = disarmedS := by
  unfold decodeAreaModeFromBankstates
  rw [if_neg hne]
  dsimp only
  split
  · exact Or.inl rfl
  · split
    · exact Or.inr (Or.inl rfl)
    · split
      · exact Or.inr (Or.inr rfl)
      · exact Or.inr (Or.inr rfl)

/-- C1: on any status blob long enough to cover the arming byte offsets
(length at least 12) and any area index, `decodeAreaModeFromBankstates` is
total and returns exactly one of AWAY, STAY, DISARMED; when both the
full-arm bit (byte at char offset 6) and the partial-arm bit (byte at char
offset 4) selected by `1 << (areaIndex % 8)` are set the result is AWAY
(AWAY takes precedence over STAY); when neither arm bit is set the result
is DISARMED regardless of the exit-delay bits. -/
theorem claim_C1 (blob : String) (i : Nat) (h : 12 ≤ blob.length) :
    (decodeAreaModeFromBankstates blob i = awayS ∨
     decodeAreaModeFromBankstates blob i = stayS ∨
     decodeAreaModeFromBankstates blob i = disarmedS) ∧
    (jsAndNum (_hexByteAt blob 6) (jsShl 1 ((i % 8 : Nat) : Int)) ≠ 0 ∧
     jsAndNum (_hexByteAt blob 4) (jsShl 1 ((i % 8 : Nat) : Int)) ≠ 0 →
     decodeAreaModeFromBankstates blob i = awayS) ∧
    (jsAndNum (_hexByteAt blob 6) (jsShl 1 ((i % 8 : Nat) : Int)) = 0 ∧
     jsAndNum (_hexByteAt blob 4) (jsShl 1 ((i % 8 : Nat) : Int)) = 0 →
     decodeAreaModeFromBankstates blob i = disarmedS) := by
  have hne : blob ≠ "" := by
    intro he
    rw [he] at h
    exact absurd h (by decide)
  refine ⟨decode_mem blob i hne, ?_, ?_⟩
  · rintro ⟨h1, h2⟩
    unfold decodeAreaModeFromBankstates
    rw [if_neg hne]
    dsimp only
    rw [if_pos (by simpa using h1)]
  · rintro ⟨h1, h2⟩
    unfold decodeAreaModeFromBankstates
    rw [if_neg hne]
    dsimp only
    rw [if_neg (by simpa using h1), if_neg (by simpa using h2)]
    split <;> rfl

/-- On a two-hex-digit string, `parseInt(_, 16)` returns the byte value. -/
theorem parse_hex_pair (s : String) (c1 c2 : Char) (hd : s.data = [c1, c2])
    (h1 : isHexDigit c1 = true) (h2 : isHexDigit c2 = true) :
    jsParseIntRadix16 s = some ((16 * hexDigitVal c1 + hexDigitVal c2 : Nat) : Int) := by
  have m1 : c1 ∈ hexChars := of_decide_eq_true h1
  have m2 : c2 ∈ hexChars := of_decide_eq_true h2
  unfold jsParseIntRadix16
  rw [hd]
  fin_cases m1 <;> fin_cases m2 <;> decide

/-- C6 counterexample: on the malformed two-character slice "zz", `byteAt`
returns NaN (modelled `none`), not 0, refuting the claim that every
malformed slice yields 0. -/
theorem claim_C6_cex : _hexByteAt zzS 0 = none ∧ _hexByteAt zzS 0 ≠ some 0 := by decide

/-- C6 (amended): when the two-character slice at the offset is valid
hexadecimal, `byteAt` returns its integer value; when the slice is shorter
than two characters (out-of-range offset) it returns 0; when the slice has
two characters the result is exactly JS `parseInt(slice, 16)` — which for a
malformed slice is NaN or a partial-prefix value, not necessarily 0 — and
it never throws (the model is a total function). -/
theorem claim_C6 (blob : String) (off : Int) (c1 c2 : Char) :
    ((jsSubstring blob off (off + 2)).data = [c1, c2] → isHexDigit c1 = true →
      isHexDigit c2 = true →
      _hexByteAt blob off = some ((16 * hexDigitVal c1 + hexDigitVal c2 : Nat) : Int)) ∧
    ((jsSubstring blob off (off + 2)).length ≠ 2 → _hexByteAt blob off = some 0) ∧
    ((jsSubstring blob off (off + 2)).length = 2 →
      _hexByteAt blob off = jsParseIntRadix16 (jsSubstring blob off (off + 2))) := by
  refine ⟨?_, ?_, ?_⟩
  · intro hd h1 h2
    have hlen : (jsSubstring blob off (off + 2)).length = 2 := by
      simp [String.length, hd]
    unfold _hexByteAt
    rw [if_neg]
    · exact parse_hex_pair _ c1 c2 hd h1 h2
    · push_neg
      refine ⟨?_, hlen⟩
      intro he
      rw [he] at hlen
      exact absurd hlen (by decide)
  · intro h
    unfold _hexByteAt
    rw [if_pos (Or.inr h)]
  · intro h
    unfold _hexByteAt
    rw [if_neg]
    push_neg
    refine ⟨?_, h⟩
    intro he
    rw [he] at h
    exact absurd h (by decide)

/-- C7 counterexample: on the empty blob both polarities of `isZoneOpen`
return false, so the polarity round-trip fails there. -/
theorem claim_C7_cex :
    isZoneOpenFromBanks emptyS 1 0 true = false ∧ isZoneOpenFromBanks emptyS 1 0 false = false ∧
    isZoneOpenFromBanks emptyS 1 0 true ≠ !(isZoneOpenFromBanks emptyS 1 0 false) := by decide

/-- C7 (amended): for every non-empty blob, zone number and bank value,
`isZoneOpen(blob, z, bank, true)` is the negation of
`isZoneOpen(blob, z, bank, false)`. -/
theorem claim_C7 (blob : String) (z bank : Nat) (hb : blob ≠ "") :
    isZoneOpenFromBanks blob z bank true = !(isZoneOpenFromBanks blob z bank false) := by
  simp [isZoneOpenFromBanks, hb]

/-- `setMode` caches the (non-falsy) mode it is given. -/
theorem setMode_fst_cachedMode (st : ReconSt) (mode0 : String) (h : mode0 ≠ "") :
    (setMode st mode0).1.cachedMode = mode0 := by
  unfold setMode
  simp only [h, if_false]
  by_cases hc : mode0 = st.cachedMode
  · simp [hc]
  · simp [hc]

/-- `setMode` never touches the cached door state. -/
theorem setMode_fst_door (st : ReconSt) (mode0 : String) :
    (setMode st mode0).1.cachedDoorOpen = st.cachedDoorOpen := by
  unfold setMode
  dsimp only
  split <;> split <;> rfl

/-- `setGarageOpen` caches the value it is given. -/
theorem setGarageOpen_fst_door (st : ReconSt) (b : Bool) :
    (setGarageOpen st b).1.cachedDoorOpen = some b := by
  unfold setGarageOpen
  by_cases h : st.cachedDoorOpen = some b
  · simp [h]
  · simp [h]

/-- `setGarageOpen` never touches the cached mode. -/
theorem setGarageOpen_fst_mode (st : ReconSt) (b : Bool) :
    (setGarageOpen st b).1.cachedMode = st.cachedMode := by
  unfold setGarageOpen
  split
  · rfl
  · rfl

/-- After a successful poll the cached mode is the decoded mode. -/
theorem pollOnce_fst_cachedMode (cfg : PlatformConfig) (st : ReconSt) (blob : String) :
    (pollOnce cfg st blob).1.cachedMode = decodeAreaModeFromBankstates blob cfg.areaIndex := by
  unfold pollOnce
  by_cases hz : 0 < cfg.rollerDoorZone
  · simp only [hz, if_true]
    rw [setGarageOpen_fst_mode, setMode_fst_cachedMode _ _ (decode_ne_empty blob cfg.areaIndex)]
  · simp only [hz, if_false]
    exact setMode_fst_cachedMode _ _ (decode_ne_empty blob cfg.areaIndex)

/-- C8 counterexample: after a poll decodes AWAY from a real blob, a later
successful poll whose status payload has an empty `bankstates` decodes
UNKNOWN and re-caches it, refuting the claim that UNKNOWN can never be
yielded or cached after the first successful decode. -/
theorem claim_C8_cex :
    (pollOnce cfgNoDoor ⟨unknownS, none⟩ blobAway).1.cachedMode = awayS ∧
    (pollOnce cfgNoDoor (pollOnce cfgNoDoor ⟨unknownS, none⟩ blobAway).1 emptyS).1.cachedMode
      = unknownS := by decide

/-- C8 (amended): UNKNOWN is only produced by an empty (missing) blob — for
every non-empty blob the decoded mode is never UNKNOWN and a poll on a
non-empty blob never caches UNKNOWN. -/
theorem claim_C8 (blob : String) (i : Nat) (cfg : PlatformConfig) (st : ReconSt)
    (hb : blob ≠ "") :
    decodeAreaModeFromBankstates blob i ≠ unknownS ∧
    (pollOnce cfg st blob).1.cachedMode ≠ unknownS := by
  have hmem := decode_mem blob i hb
  have hmem2 := decode_mem blob cfg.areaIndex hb
  constructor
  · rcases hmem with h | h | h <;> rw [h] <;> decide
  · rw [pollOnce_fst_cachedMode]
    rcases hmem2 with h | h | h <;> rw [h] <;> decide

/-- `setMode` on the cached mode is a silent no-op. -/
theorem setMode_self (st : ReconSt) (mode0 : String) (h0 : mode0 ≠ "")
    (h : mode0 = st.cachedMode) : setMode st mode0 = (st, []) := by
  unfold setMode
  dsimp only
  rw [if_neg h0, if_pos h]

/-- `setGarageOpen` on the cached value is a silent no-op. -/
theorem setGarageOpen_self (st : ReconSt) (b : Bool) (h : st.cachedDoorOpen = some b) :
    setGarageOpen st b = (st, []) := by
  unfold setGarageOpen
  rw [if_pos h]

/-- With a door zone configured, a poll caches the decoded zone state. -/
theorem pollOnce_fst_door_pos (cfg : PlatformConfig) (st : ReconSt) (blob : String)
    (hz : 0 < cfg.rollerDoorZone) :
    (pollOnce cfg st blob).1.cachedDoorOpen =
      some (isZoneOpenFromBanks (getZoneStateBanks blob) cfg.rollerDoorZone
        cfg.zoneOpenBank cfg.zoneOpenWhenSet) := by
  unfold pollOnce
  rw [if_pos hz]
  exact setGarageOpen_fst_door _ _

/-- Without a door zone, a poll leaves the cached door state alone. -/
theorem pollOnce_fst_door_neg (cfg : PlatformConfig) (st : ReconSt) (blob : String)
    (hz : ¬ 0 < cfg.rollerDoorZone) :
    (pollOnce cfg st blob).1.cachedDoorOpen = st.cachedDoorOpen := by
  unfold pollOnce
  rw [if_neg hz]
  exact setMode_fst_door _ _

/-- A poll whose reconcile steps are both no-ops is a silent no-op. -/
theorem pollOnce_stable (cfg : PlatformConfig) (s : ReconSt) (blob : String)
    (h1 : setMode s (decodeAreaModeFromBankstates blob cfg.areaIndex) = (s, []))
    (h2 : 0 < cfg.rollerDoorZone →
      setGarageOpen s (isZoneOpenFromBanks (getZoneStateBanks blob) cfg.rollerDoorZone
        cfg.zoneOpenBank cfg.zoneOpenWhenSet) = (s, [])) :
    pollOnce cfg s blob = (s, []) := by
  unfold pollOnce
  by_cases hz : 0 < cfg.rollerDoorZone
  · rw [if_pos hz]
    dsimp only
    rw [h1]
    simp [h2 hz]
  · rw [if_neg hz]
    exact h1

/-- C4: the poll is idempotent — for any configuration, snapshot and blob,
running the poll cycle a second time with the same blob emits no
notifications (no characteristic updates and no pulse invocations) and
leaves the snapshot fixed. -/
theorem claim_C4 (cfg : PlatformConfig) (st : ReconSt) (blob : String) :
    (pollOnce cfg (pollOnce cfg st blob).1 blob).2 = [] ∧
    (pollOnce cfg (pollOnce cfg st blob).1 blob).1 = (pollOnce cfg st blob).1 := by
  have hstable : pollOnce cfg (pollOnce cfg st blob).1 blob = ((pollOnce cfg st blob).1, []) := by
    apply pollOnce_stable
    · exact setMode_self _ _ (decode_ne_empty blob cfg.areaIndex)
        (pollOnce_fst_cachedMode cfg st blob).symm
    · intro hz
      exact setGarageOpen_self _ _ (pollOnce_fst_door_pos cfg st blob hz)
  rw [hstable]
  exact ⟨rfl, rfl⟩

/-- C5: the snapshot is updated exactly by successful polls — a failing
poll leaves both cached fields untouched (it only clears the session token
and raises the fault indicator), while a successful poll sets the cached
mode to the decoded mode and, when a door zone is configured, the cached
door state to the decoded zone state (leaving it untouched otherwise). -/
theorem claim_C5 (cfg : PlatformConfig) (st : SafeSt) :
    (∀ e : String,
      (pollOnceSafe cfg st (Except.error e)).1.recon.cachedMode = st.recon.cachedMode ∧
      (pollOnceSafe cfg st (Except.error e)).1.recon.cachedDoorOpen = st.recon.cachedDoorOpen ∧
      (pollOnceSafe cfg st (Except.error e)).1.sess = none ∧
      (pollOnceSafe cfg st (Except.error e)).2 = [Ev.updateSecurityFault FaultV.GENERAL_FAULT]) ∧
    (∀ blob : String,
      (pollOnceSafe cfg st (Except.ok blob)).1.recon.cachedMode =
        decodeAreaModeFromBankstates blob cfg.areaIndex ∧
      (0 < cfg.rollerDoorZone →
        (pollOnceSafe cfg st (Except.ok blob)).1.recon.cachedDoorOpen =
          some (isZoneOpenFromBanks (getZoneStateBanks blob) cfg.rollerDoorZone
            cfg.zoneOpenBank cfg.zoneOpenWhenSet)) ∧
      (¬ 0 < cfg.rollerDoorZone →
        (pollOnceSafe cfg st (Except.ok blob)).1.recon.cachedDoorOpen =
          st.recon.cachedDoorOpen)) := by
  constructor
  · intro e
    exact ⟨rfl, rfl, rfl, rfl⟩
  · intro blob
    refine ⟨?_, ?_, ?_⟩
    · show (pollOnce cfg st.recon blob).1.cachedMode = _
      exact pollOnce_fst_cachedMode cfg st.recon blob
    · intro hz
      exact pollOnce_fst_door_pos cfg st.recon blob hz
    · intro hz
      exact pollOnce_fst_door_neg cfg st.recon blob hz

/-- C5 witness at a concrete configuration with a door zone. -/
theorem claim_C5_w :
    (pollOnceSafe cfgDoor ⟨⟨unknownS, none⟩, some tokA⟩ (Except.ok blobZ)).1.recon.cachedDoorOpen
      = some (isZoneOpenFromBanks (getZoneStateBanks blobZ) 1 0 true) :=
  ((claim_C5 cfgDoor ⟨⟨unknownS, none⟩, some tokA⟩).2 blobZ).2.1 (by decide)

/-- C10: whenever the decoded mode is outside DISARMED, STAY, AWAY (for
example UNKNOWN) and differs from the cached mode, the accessory layer is
told current state DISARMED and target state DISARM — UNKNOWN is never
exposed as a distinct level state. -/
theorem claim_C10 (st : ReconSt) (mode0 : String)
    (h1 : mode0 ≠ disarmedS) (h2 : mode0 ≠ stayS) (h3 : mode0 ≠ awayS)
    (hdiff : (if mode0 = "" then unknownS else mode0) ≠ st.cachedMode) :
    (setMode st mode0).2 =
      [Ev.pulse alarmKey, Ev.updateSecurityCurrent SecCur.DISARMED,
       Ev.updateSecurityTarget SecTgt.DISARM, Ev.updateSecurityFault FaultV.NO_FAULT] ∧
    (setMode st mode0).1.cachedMode = (if mode0 = "" then unknownS else mode0) := by
  have hm1 : (if mode0 = "" then unknownS else mode0) ≠ disarmedS := by
    by_cases h0 : mode0 = ""
    · rw [if_pos h0]; decide
    · rw [if_neg h0]; exact h1
  have hm2 : (if mode0 = "" then unknownS else mode0) ≠ stayS := by
    by_cases h0 : mode0 = ""
    · rw [if_pos h0]; decide
    · rw [if_neg h0]; exact h2
  have hm3 : (if mode0 = "" then unknownS else mode0) ≠ awayS := by
    by_cases h0 : mode0 = ""
    · rw [if_pos h0]; decide
    · rw [if_neg h0]; exact h3
  unfold setMode
  dsimp only
  rw [if_neg hdiff, if_neg hm1, if_neg hm2, if_neg hm3, if_neg hm1, if_neg hm2, if_neg hm3]
  exact ⟨rfl, rfl⟩

/-- C10 witness: caching UNKNOWN over AWAY reports DISARMED / DISARM. -/
theorem claim_C10_w :
    (setMode ⟨awayS, none⟩ unknownS).2 =
      [Ev.pulse alarmKey, Ev.updateSecurityCurrent SecCur.DISARMED,
       Ev.updateSecurityTarget SecTgt.DISARM, Ev.updateSecurityFault FaultV.NO_FAULT] ∧
    (setMode ⟨awayS, none⟩ unknownS).1.cachedMode = (if unknownS = "" then unknownS else unknownS) :=
  claim_C10 ⟨awayS, none⟩ unknownS (by decide) (by decide) (by decide) (by decide)

/-- C3 counterexample: when both the first and the retry response are login
pages and JSON is not expected, the call resolves with the login-page text
(after exactly one re-login and one retry) instead of failing with a
surfaced error. -/
theorem claim_C3_cex :
    looksLikeLoginHtml markerName = true ∧
    (request (fun _ => (none : Option Unit)) (fun _ => false) (fun _ => markerName) false).outcome
      = ReqOutcome.text markerName ∧
    (request (fun _ => (none : Option Unit)) (fun _ => false) (fun _ => markerName) false).fetches
      = 2 ∧
    (request (fun _ => (none : Option Unit)) (fun _ => false) (fun _ => markerName) false).logins
      = 1 := by
  refine ⟨by decide, ?_, ?_, ?_⟩ <;> rfl

/-- C3 (amended): for every call whose first response is classified as a
login page, exactly one re-login and exactly one retry are performed and no
third attempt is made; the retry's body then goes through normal response
processing — returned as-is when JSON is not expected, and surfaced as an
Invalid-JSON error when JSON is expected and the body does not parse. -/
theorem claim_C3 {J : Type} (parse : String → Option J) (hasErr : J → Bool)
    (bodies : Nat → String) (expectJson : Bool)
    (h1 : looksLikeLoginHtml (bodies 0) = true) :
    (request parse hasErr bodies expectJson).fetches = 2 ∧
    (request parse hasErr bodies expectJson).logins = 1 ∧
    (expectJson = false →
      (request parse hasErr bodies expectJson).outcome = ReqOutcome.text (bodies 1)) ∧
    (expectJson = true → parse (bodies 1) = none →
      (request parse hasErr bodies expectJson).outcome
        = ReqOutcome.invalidJson ⟨(bodies 1).data.take 120⟩) := by
  unfold request
  rw [if_pos h1]
  refine ⟨rfl, rfl, ?_, ?_⟩
  · intro he
    subst he
    rfl
  · intro he hp
    subst he
    unfold processResponse
    simp [hp]

/-- C3 witness: a JSON-expecting call with two login-page responses. -/
theorem claim_C3_w :
    (request (fun _ => (none : Option Unit)) (fun _ => false) (fun _ => markerName) true).outcome
      = ReqOutcome.invalidJson ⟨markerName.data.take 120⟩ :=
  (claim_C3 (fun _ => (none : Option Unit)) (fun _ => false) (fun _ => markerName) true
    (by decide)).2.2.2 rfl rfl

/-- C1 witness on an all-zero blob of length 12. -/
theorem claim_C1_w :
    decodeAreaModeFromBankstates blobZeros 0 = awayS ∨
    decodeAreaModeFromBankstates blobZeros 0 = stayS ∨
    decodeAreaModeFromBankstates blobZeros 0 = disarmedS :=
  (claim_C1 blobZeros 0 (by decide)).1

/-- C6 witness: a valid slice and an out-of-range offset. -/
theorem claim_C6_w :
    _hexByteAt blob1234 0 = some ((16 * hexDigitVal '1' + hexDigitVal '2' : Nat) : Int) ∧
    _hexByteAt blob1234 10 = some 0 :=
  ⟨(claim_C6 blob1234 0 '1' '2').1 (by decide) (by decide) (by decide),
   (claim_C6 blob1234 10 '1' '2').2.1 (by decide)⟩

/-- C7 witness on a non-empty blob. -/
theorem claim_C7_w :
    isZoneOpenFromBanks blobZ 1 0 true = !(isZoneOpenFromBanks blobZ 1 0 false) :=
  claim_C7 blobZ 1 0 (by decide)

/-- C8 witness on the armed blob. -/
theorem claim_C8_w :
    decodeAreaModeFromBankstates blobAway 0 ≠ unknownS ∧
    (pollOnce cfgNoDoor ⟨unknownS, none⟩ blobAway).1.cachedMode ≠ unknownS :=
  claim_C8 blobAway 0 cfgNoDoor ⟨unknownS, none⟩ (by decide)

/-- Two filters commute. -/
theorem filter_swap {α : Type} (p q : α → Bool) (l : List α) :
    (l.filter q).filter p = (l.filter p).filter q := by
  induction l with
  | nil => rfl
  | cons a t ih =>
    by_cases hp : p a <;> by_cases hq : q a <;> simp [List.filter_cons, hp, hq, ih]


/-- With distinct pending ids, the registered timer of one key cannot
appear among the pending timers of another key. -/
theorem mem_pendingFor_unique (st : PulseSt) (hnd : (st.pending.map Prod.fst).Nodup)
    (k key : String) (i : Nat) (ft : Nat)
    (hpf : pendingFor st key = [(i, key, ft)]) (hk : k ≠ key) :
    ∀ e ∈ pendingFor st k, e.1 ≠ i := by
  intro e he hei
  have hekey : (i, key, ft) ∈ st.pending := by
    have : (i, key, ft) ∈ pendingFor st key := by
      rw [hpf]
      exact List.mem_singleton.mpr rfl
    exact List.mem_of_mem_filter this
  have he' := List.mem_filter.mp he
  have heq : e = (i, key, ft) :=
    List.inj_on_of_nodup_map hnd he'.1 hekey hei
  have : e.2.1 = k := by simpa using he'.2
  rw [heq] at this
  exact hk (by simpa using this.symm)

/-- Effect of one `pulseMotion`: the key's signal goes active, its timer
registration points at the fresh timeout scheduled at `now + ms`, that
timeout is the key's only pending reset, other keys are untouched, and
well-formedness is preserved. -/
theorem pulse_spec (st : PulseSt) (key : String) (now ms : Nat) (hWF : PulseWF st) :
    (pulseMotion st key now ms).motion key = true ∧
    (pulseMotion st key now ms).resetTimer key = some st.nextId ∧
    (pulseMotion st key now ms).nextId = st.nextId + 1 ∧
    pendingFor (pulseMotion st key now ms) key = [(st.nextId, key, now + ms)] ∧
    (∀ k, k ≠ key → (pulseMotion st key now ms).motion k = st.motion k) ∧
    (∀ k, k ≠ key → (pulseMotion st key now ms).resetTimer k = st.resetTimer k) ∧
    (∀ k, k ≠ key → pendingFor (pulseMotion st key now ms) k = pendingFor st k) ∧
    PulseWF (pulseMotion st key now ms) := by
  obtain ⟨hlt, hnd, hregn, hregs⟩ := hWF
  obtain ⟨cleared, hcleq, hsub, hclnd, hckey, hcother⟩ :
      ∃ cleared, (pulseMotion st key now ms).pending = cleared ++ [(st.nextId, key, now + ms)] ∧
        (∀ x ∈ cleared, x ∈ st.pending) ∧
        (cleared.map Prod.fst).Nodup ∧
        cleared.filter (fun t => t.2.1 = key) = [] ∧
        (∀ k, k ≠ key → cleared.filter (fun t => t.2.1 = k) = pendingFor st k) := by
    cases hr : st.resetTimer key with
    | none =>
      refine ⟨st.pending, ?_, fun x hx => hx, hnd, hregn key hr, fun k hk => rfl⟩
      unfold pulseMotion
      rw [hr]
    | some i =>
      obtain ⟨ft, hpf⟩ := hregs key i hr
      refine ⟨st.pending.filter (fun t => t.1 ≠ i), ?_, ?_, ?_, ?_, ?_⟩
      · unfold pulseMotion
        rw [hr]
      · intro x hx
        exact List.mem_of_mem_filter hx
      · exact List.Nodup.sublist
          (List.Sublist.map Prod.fst (List.filter_sublist st.pending)) hnd
      · rw [filter_swap]
        show (pendingFor st key).filter (fun t => t.1 ≠ i) = []
        rw [hpf]
        simp
      · intro k hk
        rw [filter_swap]
        show (pendingFor st k).filter (fun t => t.1 ≠ i) = pendingFor st k
        rw [List.filter_eq_self]
        intro a ha
        simpa using mem_pendingFor_unique st hnd k key i ft hpf hk a ha
  have hmot : (pulseMotion st key now ms).motion = fun k => if k = key then true else st.motion k := by
    unfold pulseMotion
    cases hr : st.resetTimer key <;> rfl
  have hres : (pulseMotion st key now ms).resetTimer =
      fun k => if k = key then some st.nextId else st.resetTimer k := by
    unfold pulseMotion
    cases hr : st.resetTimer key <;> rfl
  have hnid : (pulseMotion st key now ms).nextId = st.nextId + 1 := by
    unfold pulseMotion
    cases hr : st.resetTimer key <;> rfl
  have hpkey : pendingFor (pulseMotion st key now ms) key = [(st.nextId, key, now + ms)] := by
    unfold pendingFor
    rw [hcleq, List.filter_append, hckey]
    simp
  have hpother : ∀ k, k ≠ key → pendingFor (pulseMotion st key now ms) k = pendingFor st k := by
    intro k hk
    unfold pendingFor
    rw [hcleq, List.filter_append, hcother k hk]
    have hone : ([(st.nextId, key, now + ms)].filter (fun t => t.2.1 = k)) = [] := by
      simp [Ne.symm hk]
    rw [hone, List.append_nil]
    rfl
  refine ⟨by rw [hmot]; simp, by rw [hres]; simp, hnid, hpkey, ?_, ?_, hpother, ?_, ?_, ?_, ?_⟩
  · intro k hk
    rw [hmot]
    simp [hk]
  · intro k hk
    rw [hres]
    simp [hk]
  · intro t ht
    rw [hcleq] at ht
    rw [hnid]
    rcases List.mem_append.mp ht with h | h
    · exact Nat.lt_succ_of_lt (hlt t (hsub t h))
    · rw [List.mem_singleton.mp h]
      exact Nat.lt_succ_self _
  · rw [hcleq, List.map_append, List.nodup_append]
    refine ⟨hclnd, by simp, ?_⟩
    intro a ha hb
    have hab : a = st.nextId := by simpa using hb
    obtain ⟨x, hx, hxa⟩ := List.mem_map.mp ha
    have : x.1 < st.nextId := hlt x (hsub x hx)
    rw [hxa, hab] at this
    exact Nat.lt_irrefl _ this
  · intro k hk
    rw [hres] at hk
    dsimp only at hk
    by_cases hkey : k = key
    · rw [if_pos hkey] at hk
      exact absurd hk (by simp)
    · rw [if_neg hkey] at hk
      rw [hpother k hkey]
      exact hregn k hk
  · intro k i hk
    rw [hres] at hk
    dsimp only at hk
    by_cases hkey : k = key
    · rw [if_pos hkey] at hk
      subst hkey
      refine ⟨now + ms, ?_⟩
      rw [hpkey]
      injection hk with hk'
      rw [hk']
    · rw [if_neg hkey] at hk
      obtain ⟨ft, hft⟩ := hregs k i hk
      exact ⟨ft, by rw [hpother k hkey, hft]⟩

/-- When a timer is registered for the key, `pulseMotion` clears it and
appends the fresh timeout. -/
theorem pulseMotion_pending_some (s : PulseSt) (key : String) (now ms i : Nat)
    (hr : s.resetTimer key = some i) :
    (pulseMotion s key now ms).pending =
      s.pending.filter (fun t => t.1 ≠ i) ++ [(s.nextId, key, now + ms)] := by
  unfold pulseMotion
  rw [hr]

/-- C9: pulse coalescing. `pulse(key)` sets the signal active immediately and
schedules a reset at `trigger time + pulse duration`; a second `pulse(key)`
before the reset fires cancels the pending reset (firing the old timeout id is
a no-op) and leaves exactly one reset for `key`, scheduled from the second
trigger's time; the signal stays active across both triggers; a distinct key's
signal, timer registration and pending resets are untouched. -/
theorem claim_C9 (st : PulseSt) (key k2 : String) (t1 t2 ms : Nat)
    (hWF : PulseWF st) (hk2 : k2 ≠ key) :
    (pulseMotion st key t1 ms).motion key = true ∧
    pendingFor (pulseMotion st key t1 ms) key = [(st.nextId, key, t1 + ms)] ∧
    (pulseMotion (pulseMotion st key t1 ms) key t2 ms).motion key = true ∧
    pendingFor (pulseMotion (pulseMotion st key t1 ms) key t2 ms) key
      = [(st.nextId + 1, key, t2 + ms)] ∧
    fireTimer (pulseMotion (pulseMotion st key t1 ms) key t2 ms) st.nextId
      = pulseMotion (pulseMotion st key t1 ms) key t2 ms ∧
    (pulseMotion (pulseMotion st key t1 ms) key t2 ms).motion k2 = st.motion k2 ∧
    (pulseMotion (pulseMotion st key t1 ms) key t2 ms).resetTimer k2 = st.resetTimer k2 ∧
    pendingFor (pulseMotion (pulseMotion st key t1 ms) key t2 ms) k2 = pendingFor st k2 := by
  obtain ⟨h1m, h1r, h1n, h1p, h1mo, h1ro, h1po, h1wf⟩ := pulse_spec st key t1 ms hWF
  obtain ⟨h2m, h2r, h2n, h2p, h2mo, h2ro, h2po, h2wf⟩ :=
    pulse_spec (pulseMotion st key t1 ms) key t2 ms h1wf
  refine ⟨h1m, h1p, h2m, ?_, ?_, ?_, ?_, ?_⟩
  · rw [h2p, h1n]
  · have hs2p := pulseMotion_pending_some (pulseMotion st key t1 ms) key t2 ms st.nextId h1r
    have hfind : (pulseMotion (pulseMotion st key t1 ms) key t2 ms).pending.find?
        (fun t => t.1 = st.nextId) = none := by
      rw [hs2p, List.find?_eq_none]
      intro x hx
      rcases List.mem_append.mp hx with h | h
      · have hm := List.mem_filter.mp h
        simpa using hm.2
      · rw [List.mem_singleton.mp h]
        simp [h1n]
    unfold fireTimer
    rw [hfind]
  · exact (h2mo k2 hk2).trans (h1mo k2 hk2)
  · exact (h2ro k2 hk2).trans (h1ro k2 hk2)
  · exact (h2po k2 hk2).trans (h1po k2 hk2)

/-- The startup pulse state is well-formed. -/
theorem stEmpty_WF : PulseWF stEmpty :=
  ⟨fun t ht => absurd ht (List.not_mem_nil t), by simp [stEmpty],
   fun _ _ => rfl, fun k i h => absurd h (by simp [stEmpty])⟩

/-- C9 witness: two pulses of the alarm key from the startup state. -/
theorem claim_C9_w :
    (pulseMotion stEmpty alarmKey 0 1500).motion alarmKey = true ∧
    pendingFor (pulseMotion stEmpty alarmKey 0 1500) alarmKey
      = [(stEmpty.nextId, alarmKey, 0 + 1500)] ∧
    (pulseMotion (pulseMotion stEmpty alarmKey 0 1500) alarmKey 5 1500).motion alarmKey = true ∧
    pendingFor (pulseMotion (pulseMotion stEmpty alarmKey 0 1500) alarmKey 5 1500) alarmKey
      = [(stEmpty.nextId + 1, alarmKey, 5 + 1500)] ∧
    fireTimer (pulseMotion (pulseMotion stEmpty alarmKey 0 1500) alarmKey 5 1500) stEmpty.nextId
      = pulseMotion (pulseMotion stEmpty alarmKey 0 1500) alarmKey 5 1500 ∧
    (pulseMotion (pulseMotion stEmpty alarmKey 0 1500) alarmKey 5 1500).motion doorKey
      = stEmpty.motion doorKey ∧
    (pulseMotion (pulseMotion stEmpty alarmKey 0 1500) alarmKey 5 1500).resetTimer doorKey
      = stEmpty.resetTimer doorKey ∧
    pendingFor (pulseMotion (pulseMotion stEmpty alarmKey 0 1500) alarmKey 5 1500) doorKey
      = pendingFor stEmpty doorKey :=
  claim_C9 stEmpty alarmKey doorKey 0 5 1500 stEmpty_WF (by decide)

/-- The initial state satisfies the concurrent-phase invariant. -/
theorem phase1_init (n : Nat) : phase1Inv n (initSys n) := by
  refine ⟨by simp [initSys], rfl, Or.inl ⟨?_, rfl, rfl, rfl⟩⟩
  intro c hc
  exact (List.mem_replicate.mp hc).2

/-- A caller prefix preserves the concurrent-phase invariant. -/
theorem phase1_step (n : Nat) (s : LoginSys) (ci : Nat) (h : phase1Inv n s) :
    phase1Inv n (lcall s ci) := by
  obtain ⟨hlen, hsess, hcase⟩ := h
  unfold lcall
  split
  · rw [hsess]
    dsimp only
    rcases hcase with ⟨hall, hlog, hprom, hatt⟩ | ⟨hlog, hprom, hatt, hcallers⟩
    · rw [hlog]
      dsimp only
      refine ⟨by simp [hlen], rfl,
        Or.inr ⟨by simp [hprom], by simp [hprom], by rw [hatt], ?_⟩⟩
      intro c hc
      rcases List.mem_or_eq_of_mem_set hc with hc' | rfl
      · exact Or.inl (hall c hc')
      · exact Or.inr ⟨true, by simp [hprom]⟩
    · rw [hlog]
      dsimp only
      refine ⟨by simp [hlen], rfl, Or.inr ⟨rfl, hprom, hatt, ?_⟩⟩
      intro c hc
      rcases List.mem_or_eq_of_mem_set hc with hc' | rfl
      · exact hcallers c hc'
      · exact Or.inr ⟨false, rfl⟩
  · exact ⟨hlen, hsess, hcase⟩

/-- Any schedule of caller prefixes preserves the invariant. -/
theorem phase1_run (n : Nat) (es : List LEvent) (hes : ∀ e ∈ es, isCall e = true)
    (s : LoginSys) (h : phase1Inv n s) : phase1Inv n (execList s es) := by
  induction es generalizing s with
  | nil => exact h
  | cons e t ih =>
    have he := hes e (List.mem_cons_self e t)
    obtain ⟨ci, rfl⟩ : ∃ ci, e = LEvent.call ci := by
      cases e with
      | call ci => exact ⟨ci, rfl⟩
      | settle p o => exact absurd he (by simp [isCall])
      | resume ci => exact absurd he (by simp [isCall])
    exact ih (fun e' he' => hes e' (List.mem_cons_of_mem _ he')) _ (phase1_step n s ci h)

/-- A resumption preserves the resumption-phase invariant. -/
theorem phase3_step (o : LoginOutcome) (s : LoginSys) (ci : Nat) (h : phase3Inv o s) :
    phase3Inv o (lresume s ci) := by
  obtain ⟨hatt, hprom, hcall⟩ := h
  unfold lresume
  split
  case _ pid cr heq =>
    have hmem : CallerSt.awaiting pid cr ∈ s.callers := List.get?_mem heq
    have hpid : pid = 0 := by
      rcases hcall _ hmem with ⟨cr', hx⟩ | hx
      · injection hx with h1 h2
      · cases o <;> simp [retMatch] at hx
    subst hpid
    rw [hprom]
    split
    case _ o' heq' =>
      have ho' : o' = o := by
        simp [List.get?] at heq'
        exact heq'.symm
      subst ho'
      refine ⟨hatt, rfl, ?_⟩
      intro c hc
      rcases List.mem_or_eq_of_mem_set hc with hc' | rfl
      · exact hcall c hc'
      · exact Or.inr rfl
    case _ hne =>
      exact ⟨hatt, hprom, hcall⟩
  case _ =>
    exact ⟨hatt, hprom, hcall⟩

/-- Any resumption schedule preserves the invariant. -/
theorem phase3_run (o : LoginOutcome) (rs : List LEvent) (hrs : ∀ e ∈ rs, isResume e = true)
    (s : LoginSys) (h : phase3Inv o s) : phase3Inv o (execList s rs) := by
  induction rs generalizing s with
  | nil => exact h
  | cons e t ih =>
    have he := hrs e (List.mem_cons_self e t)
    obtain ⟨ci, rfl⟩ : ∃ ci, e = LEvent.resume ci := by
      cases e with
      | call ci => exact absurd he (by simp [isResume])
      | settle p o' => exact absurd he (by simp [isResume])
      | resume ci => exact ⟨ci, rfl⟩
    exact ih (fun e' he' => hrs e' (List.mem_cons_of_mem _ he')) _ (phase3_step o s ci h)

/-- C2: login is single-flight. From the no-session initial state with `n > 0`
callers, after any interleaving of the callers' synchronous prefixes in which
every caller has run (no caller still at `start`), exactly one network login
attempt has been started; settling that attempt with outcome `o` and running
any resumption schedule after which no caller is still suspended leaves the
attempt count at one and every caller returned with the same outcome:
`retOk` when the single attempt succeeded, `retErr` when it failed. -/
theorem claim_C2 (n : Nat) (hn : 0 < n) (es rs : List LEvent) (o : LoginOutcome)
    (hes : ∀ e ∈ es, isCall e = true) (hrs : ∀ e ∈ rs, isResume e = true)
    (hall : ∀ c ∈ (execList (initSys n) es).callers, c ≠ CallerSt.start)
    (hdone : ∀ c ∈ (execList (lstep (execList (initSys n) es) (LEvent.settle 0 o)) rs).callers,
      isAwait c = false) :
    (execList (initSys n) es).attempts = 1 ∧
    (execList (lstep (execList (initSys n) es) (LEvent.settle 0 o)) rs).attempts = 1 ∧
    ∀ c ∈ (execList (lstep (execList (initSys n) es) (LEvent.settle 0 o)) rs).callers,
      c = retMatch o := by
  obtain ⟨hlen, hsess, hcase⟩ := phase1_run n es hes (initSys n) (phase1_init n)
  have hright : (execList (initSys n) es).loggingIn = some 0 ∧
      (execList (initSys n) es).promises = [PromState.pending] ∧
      (execList (initSys n) es).attempts = 1 ∧
      ∀ c ∈ (execList (initSys n) es).callers,
        c = CallerSt.start ∨ ∃ cr, c = CallerSt.awaiting 0 cr := by
    rcases hcase with ⟨hallstart, _, _, _⟩ | hr
    · exfalso
      have hne : (execList (initSys n) es).callers ≠ [] := by
        intro h0
        rw [h0] at hlen
        exact absurd (hlen ▸ hn) (by simp)
      obtain ⟨c, hc⟩ := List.exists_mem_of_ne_nil _ hne
      exact hall c hc (hallstart c hc)
    · exact hr
  obtain ⟨hlog, hprom, hatt, hcallers⟩ := hright
  have hph3 : phase3Inv o (lsettle (execList (initSys n) es) 0 o) := by
    unfold lsettle
    rw [hprom]
    dsimp only [List.get?]
    refine ⟨hatt, by simp, ?_⟩
    intro c hc
    rcases hcallers c hc with hst | hx
    · exact absurd hst (hall c hc)
    · exact Or.inl hx
  have hfin := phase3_run o rs hrs _ hph3
  obtain ⟨hatt', hprom', hcall'⟩ := hfin
  refine ⟨hatt, hatt', ?_⟩
  intro c hc
  rcases hcall' c hc with ⟨cr, rfl⟩ | hx
  · exact absurd (hdone _ hc) (by simp [isAwait])
  · exact hx

/-- C2 witness: two concurrent callers and a successful attempt. -/
theorem claim_C2_w :
    0 < 2 ∧
    (∀ e ∈ [LEvent.call 0, LEvent.call 1], isCall e = true) ∧
    (∀ e ∈ [LEvent.resume 0, LEvent.resume 1], isResume e = true) ∧
    ((execList (initSys 2) [LEvent.call 0, LEvent.call 1]).attempts = 1 ∧
     (execList (lstep (execList (initSys 2) [LEvent.call 0, LEvent.call 1])
        (LEvent.settle 0 (LoginOutcome.ok tokT))) [LEvent.resume 0, LEvent.resume 1]).attempts
        = 1 ∧
     ∀ c ∈ (execList (lstep (execList (initSys 2) [LEvent.call 0, LEvent.call 1])
        (LEvent.settle 0 (LoginOutcome.ok tokT))) [LEvent.resume 0, LEvent.resume 1]).callers,
        c = retMatch (LoginOutcome.ok tokT)) :=
  ⟨by decide, by decide, by decide,
   claim_C2 2 (by decide) [LEvent.call 0, LEvent.call 1] [LEvent.resume 0, LEvent.resume 1]
     (LoginOutcome.ok tokT) (by decide) (by decide) (by decide) (by decide)⟩
